import Mathlib

/- Verification model of the Arweave uploader plugin (src/main.ts).
   JavaScript strings are modelled as Lean strings (sequences of Unicode
   code points); the external collaborators (the Obsidian vault, the
   Arweave client library, the coingecko price feed, JSON.parse) are
   modelled as explicit environment records of possibly failing
   functions, exceptions are modelled by Except, and the user notices a
   run displays are collected in a list, in order. -/

/-- The backquote code point, written numerically. -/
def backquoteChar : Char :=
  Char.ofNat 96

/-- The single-quote code point, written numerically. -/
def singleQuoteChar : Char :=
  Char.ofNat 39

/-- ECMAScript GetSubstitution for a plain-string search value (no
capture groups, no named captures): in the replacement string, a
dollar sign followed by another dollar sign inserts one dollar sign,
followed by an ampersand inserts the matched text, followed by a
backquote inserts the text before the match, followed by a single
quote inserts the text after the match; every other dollar sequence
(digits, an angle bracket, anything else, or a trailing dollar sign)
stays literal, because a string search value has no captures. -/
def getSubstitution (matched before after : List Char) : List Char → List Char
  | [] => []
  | c :: rest =>
    if c = '$' then
      match rest with
      | [] => ['$']
      | d :: rest2 =>
        if d = '$' then '$' :: getSubstitution matched before after rest2
        else if d = '&' then matched ++ getSubstitution matched before after rest2
        else if d = backquoteChar then before ++ getSubstitution matched before after rest2
        else if d = singleQuoteChar then after ++ getSubstitution matched before after rest2
        else '$' :: d :: getSubstitution matched before after rest2
    else c :: getSubstitution matched before after rest

/-- JavaScript String.prototype.replace with a plain-string pattern
replaces only the first occurrence of the pattern, inserting the
GetSubstitution expansion of the replacement (which sees the text
before and after the match).  `seen` accumulates, reversed, the text
already scanned.  An empty pattern matches at the front, as in
JavaScript. -/
def replaceFirstAux (pat repl : List Char) (seen : List Char) : List Char → List Char
  | [] => if pat.isEmpty then getSubstitution pat seen.reverse [] repl else []
  | c :: cs =>
    if pat.isPrefixOf (c :: cs) then
      getSubstitution pat seen.reverse ((c :: cs).drop pat.length) repl ++
        (c :: cs).drop pat.length
    else c :: replaceFirstAux pat repl (c :: seen) cs

/-- The model of JavaScript `s.replace(pat, repl)` with a string `pat`
on the underlying character list. -/
def replaceFirstL (pat repl s : List Char) : List Char :=
  replaceFirstAux pat repl [] s

/-- String wrapper for `replaceFirstL`: the model of
`s.replace(pat, repl)` with a string `pat`. -/
def replaceFirst (s pat repl : String) : String :=
  ⟨replaceFirstL pat.data repl.data s.data⟩

/-- Does `pat` occur as a contiguous substring? (Model of an unanchored
JavaScript regex / indexOf search for a literal pattern.) -/
def containsSubL (pat : List Char) : List Char → Bool
  | [] => pat.isEmpty
  | c :: cs => pat.isPrefixOf (c :: cs) || containsSubL pat cs

/-- String wrapper for `containsSubL`. -/
def containsSub (pat s : String) : Bool :=
  containsSubL pat.data s.data

/-- Model of JavaScript String.prototype.toLowerCase restricted to the
ASCII range (sufficient for the extension keys the plugin compares). -/
def toLowerStr (s : String) : String :=
  ⟨s.data.map Char.toLower⟩

/-- JavaScript String.prototype.length counts UTF-16 code units: one
for a code point below 0x10000, two (a surrogate pair) otherwise. -/
def jsCharLen (c : Char) : Nat :=
  if c.toNat < 65536 then 1 else 2

/-- The value of `s.length` in JavaScript for the string `s`. -/
def jsLength (s : String) : Nat :=
  (s.data.map jsCharLen).sum

/-- Number of bytes of the UTF-8 encoding of one code point. -/
def utf8CharLen (c : Char) : Nat :=
  if c.toNat < 128 then 1
  else if c.toNat < 2048 then 2
  else if c.toNat < 65536 then 3
  else 4

/-- Number of bytes of the UTF-8 encoding of the string. -/
def utf8ByteLength (s : String) : Nat :=
  (s.data.map utf8CharLen).sum

/-- The exceptions the plugin's run can raise: a JSON.parse failure, a
non-success HTTP status raised on line 158 of src/main.ts, or any other
error thrown by an external call. -/
inductive JsError where
  | parse : String → JsError
  | status : Nat → JsError
  | network : String → JsError
deriving DecidableEq

/-- String conversion of an exception, as JavaScript string
concatenation applies it when building a notice text. -/
def JsError.toStr : JsError → String
  | .parse m => "SyntaxError: " ++ m
  | .status n => "Error: Transaction failed with status " ++ toString n
  | .network m => "Error: " ++ m

/-- An Obsidian vault file, with the fields the plugin reads. -/
structure TFile where
  name : String
  extension : String
deriving DecidableEq

/-- The active note: its base name and its raw markdown content. -/
structure NoteFile where
  basename : String
  content : String
deriving DecidableEq

/-- One entry of the metadata cache's embed index (`cache.embeds`). -/
structure EmbedCacheEntry where
  link : Option String
deriving DecidableEq

/-- A parsed wallet credential (opaque to the plugin). -/
structure Wallet where
  raw : String
deriving DecidableEq

/-- An Arweave transaction, with the fields the plugin touches. -/
structure Transaction where
  id : String
  tags : List (String × String)
deriving DecidableEq

/-- The external collaborators of src/main.ts, as possibly failing
functions: JSON.parse, the Arweave client library and the coingecko
price feed.  `arUsdRate` is the outcome of getArPriceInUSD's fetch and
field access; `numOfString` is the JavaScript Number(...) conversion
applied to the AR amount string. -/
structure ArweaveEnv where
  jsonParse : String → Except JsError Wallet
  createTransaction : String → Wallet → Except JsError Transaction
  sign : Transaction → Wallet → Except JsError Unit
  post : Transaction → Except JsError Nat
  getAddress : Wallet → Except JsError String
  getBalance : String → Except JsError String
  winstonToAr : String → String
  getPrice : Nat → Except JsError String
  arUsdRate : Except JsError ℚ
  numOfString : String → ℚ

/-- The extension→MIME lookup table of getMimeType (src/main.ts
lines 131-138). -/
def mimeTypes : List (String × String) :=
  [("png", "image/png"), ("jpg", "image/jpeg"), ("jpeg", "image/jpeg"),
   ("gif", "image/gif"), ("bmp", "image/bmp"), ("svg", "image/svg+xml")]

/-- The property keys an object literal inherits from
Object.prototype: reading one of these on the mimeTypes literal yields
the inherited member — a truthy function, or for the accessor at index
seven the prototype object itself — instead of undefined.  Because the
source lowercases the extension before the lookup, only the
all-lowercase keys among these, the first and the eighth, are
reachable. -/
def objectPrototypeKeys : List String :=
  ["constructor", "hasOwnProperty", "isPrototypeOf", "propertyIsEnumerable",
   "toLocaleString", "toString", "valueOf", "__proto__",
   "__defineGetter__", "__defineSetter__", "__lookupGetter__", "__lookupSetter__"]

/-- What the property access of line 139 of src/main.ts can produce: a
string value (an own entry of the table, or the octet-stream default),
or a truthy member inherited from Object.prototype, carrying the key
that reached it. -/
inductive MimeLookupResult where
  | str : String → MimeLookupResult
  | protoMember : String → MimeLookupResult
deriving DecidableEq

/-- getMimeType (src/main.ts lines 130-140):
`mimeTypes[extension.toLowerCase()] || default` reads an own entry of
the object literal first; failing that, the prototype chain, whose
members are truthy, so the or-default fires only when the lowercased
key is neither an own entry nor an Object.prototype property. -/
def getMimeType (extension : String) : MimeLookupResult :=
  match mimeTypes.lookup (toLowerStr extension) with
  | some m => MimeLookupResult.str m
  | none =>
    if objectPrototypeKeys.contains (toLowerStr extension) then
      MimeLookupResult.protoMember (toLowerStr extension)
    else MimeLookupResult.str "application/octet-stream"

/-- JavaScript template-literal stringification of the looked-up
value: a string interpolates as itself; an inherited member prints as
the engines print native functions (the member at key constructor is
the Object constructor function), and the result of the inherited
accessor at the dunder-proto key, Object.prototype, prints as
[object Object].  In the plugin this branch is unreachable: an
extension collected by the image filter never lowercases to an
inherited key. -/
def mimeStrOf : MimeLookupResult → String
  | MimeLookupResult.str s => s
  | MimeLookupResult.protoMember k =>
    if k == "__proto__" then "[object Object]"
    else if k == "constructor" then "function Object() \x7b [native code] \x7d"
    else "function " ++ k ++ "() \x7b [native code] \x7d"

/-- convertImageToBase64 (src/main.ts lines 123-128): the data URI for
a file, where `readBinary` models vault.readBinary composed with
arrayBufferToBase64. -/
def convertImageToBase64 (readBinary : TFile → String) (file : TFile) : String :=
  "data:" ++ mimeStrOf (getMimeType file.extension) ++ ";base64," ++ readBinary file

/-- The embed syntax the loop of openModal (src/main.ts line 64)
searches for. -/
def embedPattern (name : String) : String :=
  "![[" ++ name ++ "]]"

/-- The img element openModal substitutes for the embed syntax
(src/main.ts line 64). -/
def imgTag (readBinary : TFile → String) (file : TFile) : String :=
  "<img src=\"" ++ convertImageToBase64 readBinary file ++ "\" alt=\"" ++ file.name ++ "\">"

/-- The for-loop of openModal (src/main.ts lines 62-65): for each
collected image, one String.replace of the embed syntax by the img
element. -/
def processImages (readBinary : TFile → String) (html : String) : List TFile → String
  | [] => html
  | f :: fs =>
    processImages readBinary
      (replaceFirst html (embedPattern f.name) (imgTag readBinary f)) fs

/-- The unanchored case-insensitive regex test of src/main.ts line 113:
`file.extension.match(/png|jpg|jpeg|gif|bmp|svg/i)` is truthy exactly
when the lowercased extension has one of the six alternatives as a
substring anywhere. -/
def extMatchesImageRegex (ext : String) : Bool :=
  containsSub "png" (toLowerStr ext) || containsSub "jpg" (toLowerStr ext) ||
    containsSub "jpeg" (toLowerStr ext) || containsSub "gif" (toLowerStr ext) ||
    containsSub "bmp" (toLowerStr ext) || containsSub "svg" (toLowerStr ext)

/-- Following the claim's words (not the source): the file extension is
one of png, jpg, jpeg, gif, bmp, svg, compared case-insensitively. -/
def claimedImageExtension (ext : String) : Bool :=
  (toLowerStr ext == "png") || (toLowerStr ext == "jpg") ||
    (toLowerStr ext == "jpeg") || (toLowerStr ext == "gif") ||
    (toLowerStr ext == "bmp") || (toLowerStr ext == "svg")

/-- The embed-walking loop of getImageAttachmentsFromCurrentNote
(src/main.ts lines 107-118).  `resolveLink` models getLinkpath composed
with metadataCache.getFirstLinkpathDest and the `instanceof TFile`
check; the `link == ""` test models the JavaScript truthiness test
`if (embed.link)`, which is false for the empty string. -/
def collectAttachments (resolveLink : String → Option TFile) :
    List EmbedCacheEntry → List TFile
  | [] => []
  | e :: es =>
    match e.link with
    | none => collectAttachments resolveLink es
    | some l =>
      if l == "" then collectAttachments resolveLink es
      else
        match resolveLink l with
        | none => collectAttachments resolveLink es
        | some f =>
          if extMatchesImageRegex f.extension then f :: collectAttachments resolveLink es
          else collectAttachments resolveLink es

/-- getImageAttachmentsFromCurrentNote (src/main.ts lines 96-121): the
pair (notices displayed, attachments returned).  `embeds` is
`cache?.embeds`, collapsed to one Option. -/
def getImageAttachmentsFromCurrentNote (resolveLink : String → Option TFile)
    (currentNote : Option NoteFile) (embeds : Option (List EmbedCacheEntry)) :
    List String × List TFile :=
  match currentNote with
  | none => (["No active note to export"], [])
  | some _ =>
    match embeds with
    | none => ([], [])
    | some es => ([], collectAttachments resolveLink es)

/-- The fixed HTML skeleton of exportToHtml (src/main.ts lines 77-90),
with the note's base name as title and the rendered markdown as body. -/
def fullHtmlTemplate (basename htmlContent : String) : String :=
  "\n<!DOCTYPE html>\n<html lang=\"en\">\n<head>\n  <meta charset=\"UTF-8\">\n  <meta name=\"viewport\" content=\"width=device-width, initial-scale=1.0\">\n  <title>" ++
    basename ++
    "</title>\n  <link rel=\"stylesheet\" href=\"https://cdn.jsdelivr.net/npm/water.css@2/out/water.min.css\">\n</head>\n<body>\n  " ++
    htmlContent ++ "\n</body>\n</html>\n"

/-- exportToHtml (src/main.ts lines 72-94): the wrapped render of the
active note, or null when there is none.  `marked` is the external
markdown renderer. -/
def exportToHtml (marked : String → String) (activeFile : Option NoteFile) :
    Option String :=
  match activeFile with
  | some f => some (fullHtmlTemplate f.basename (marked f.content))
  | none => none

/-- JavaScript Math.round: the nearest integer, ties toward positive
infinity. -/
def jsRound (q : ℚ) : ℤ :=
  ⌊q + 1 / 2⌋

/-- The rounding of src/main.ts line 171: multiply by 10000, round to
the nearest integer, divide by 10000. -/
def roundTo4 (q : ℚ) : ℚ :=
  (jsRound (q * 10000) : ℚ) / 10000

/-- Drop the trailing zero characters of a digit string. -/
def stripTrailingZeros (s : String) : String :=
  ⟨(s.data.reverse.dropWhile (· == '0')).reverse⟩

/-- The decimal digits of a fractional part below 10000, zero-padded on
the left to four digits. -/
def zeroPad4 (fp : Nat) : String :=
  ⟨List.replicate (4 - (toString fp).length) '0' ++ (toString fp).data⟩

/-- Models the JavaScript number-to-string conversion for a
non-negative value whose fractional part runs to at most four decimal
places (the values line 171 of src/main.ts produces). -/
def fmtQ4Nonneg (q : ℚ) : String :=
  if (q * 10000).num.toNat % 10000 == 0 then toString ((q * 10000).num.toNat / 10000)
  else
    toString ((q * 10000).num.toNat / 10000) ++ "." ++
      stripTrailingZeros (zeroPad4 ((q * 10000).num.toNat % 10000))

/-- Models the JavaScript number-to-string conversion for a value whose
fractional part runs to at most four decimal places. -/
def fmtQ4 (q : ℚ) : String :=
  if q < 0 then "-" ++ fmtQ4Nonneg (-q) else fmtQ4Nonneg q

/-- The body of uploadToArweave's try block (src/main.ts lines 145-159):
construct the transaction, add the Content-Type tag, sign, post, and
either return the URL or throw a status-coded error. -/
def uploadBody (env : ArweaveEnv) (wallet : Wallet) (html : String) :
    Except JsError String :=
  match env.createTransaction html wallet with
  | Except.error e => Except.error e
  | Except.ok tx =>
    match env.sign { tx with tags := tx.tags ++ [("Content-Type", "text/html")] } wallet with
    | Except.error e => Except.error e
    | Except.ok _ =>
      match env.post { tx with tags := tx.tags ++ [("Content-Type", "text/html")] } with
      | Except.error e => Except.error e
      | Except.ok status =>
        if status == 200 || status == 202 then
          Except.ok ("https://arweave.net/" ++
            Transaction.id { tx with tags := tx.tags ++ [("Content-Type", "text/html")] })
        else
          Except.error (JsError.status status)

/-- uploadToArweave (src/main.ts lines 142-164): the pair (notices
displayed, result).  JSON.parse of the stored credential happens on
line 143, before the try block, so its failure displays no notice; a
failure inside the try displays one notice and is re-thrown. -/
def uploadToArweave (env : ArweaveEnv) (privateKey html : String) :
    List String × Except JsError String :=
  match env.jsonParse privateKey with
  | Except.error e => ([], Except.error e)
  | Except.ok wallet =>
    match uploadBody env wallet html with
    | Except.ok url => ([], Except.ok url)
    | Except.error e => (["Error uploading to Arweave: " ++ e.toStr], Except.error e)

/-- The body of getBalanceByPrivateKey's try block (src/main.ts
lines 187-194): parse the credential, derive the address, query the
balance, convert to AR. -/
def balanceBody (env : ArweaveEnv) (privateKey : String) : Except JsError String :=
  match env.jsonParse privateKey with
  | Except.error e => Except.error e
  | Except.ok wallet =>
    match env.getAddress wallet with
    | Except.error e => Except.error e
    | Except.ok address =>
      match env.getBalance address with
      | Except.error e => Except.error e
      | Except.ok balanceInWinston => Except.ok (env.winstonToAr balanceInWinston)

/-- getBalanceByPrivateKey (src/main.ts lines 185-199): the pair
(notices displayed, result); any failure of the body, the credential
parse included, displays one notice and is re-thrown. -/
def getBalanceByPrivateKey (env : ArweaveEnv) (privateKey : String) :
    List String × Except JsError String :=
  match balanceBody env privateKey with
  | Except.ok b => ([], Except.ok b)
  | Except.error e => (["Error getting balance: " ++ e.toStr], Except.error e)

/-- getArPriceInUSD (src/main.ts lines 179-183): the price-feed GET and
the nested field access, collapsed to the environment's outcome. -/
def getArPriceInUSD (env : ArweaveEnv) : Except JsError ℚ :=
  env.arUsdRate

/-- The body of getTransactionPrice's try block (src/main.ts
lines 168-172): the winston price of storing `data.length` bytes (the
JavaScript length, in UTF-16 code units), the AR conversion, the fiat
rate, the rounded fiat cost, and the display string. -/
def getTransactionPriceBody (env : ArweaveEnv) (data : String) :
    Except JsError String :=
  match env.getPrice (jsLength data) with
  | Except.error e => Except.error e
  | Except.ok priceInWinston =>
    match getArPriceInUSD env with
    | Except.error e => Except.error e
    | Except.ok rate =>
      Except.ok ("Transaction cost: ~" ++ env.winstonToAr priceInWinston ++ " AR (" ++
        fmtQ4 (roundTo4 (rate * env.numOfString (env.winstonToAr priceInWinston))) ++ "$)")

/-- getTransactionPrice (src/main.ts lines 166-177): the pair (notices
displayed, result); any failure of the body displays one notice and is
re-thrown. -/
def getTransactionPrice (env : ArweaveEnv) (data : String) :
    List String × Except JsError String :=
  match getTransactionPriceBody env data with
  | Except.ok s => ([], Except.ok s)
  | Except.error e => (["Error calculating transaction price: " ++ e.toStr], Except.error e)

/-- openModal (src/main.ts lines 58-70): export the note, and when the
result is truthy inline the images and open the modal with the price
string and the final HTML (`Except.ok (some (price, html))`); when it
is not, display the notice and open nothing (`Except.ok none`); an
error of the price computation propagates uncaught. -/
def openModal (env : ArweaveEnv) (readBinary : TFile → String)
    (marked : String → String) (resolveLink : String → Option TFile)
    (activeFile : Option NoteFile) (embeds : Option (List EmbedCacheEntry)) :
    List String × Except JsError (Option (String × String)) :=
  match exportToHtml marked activeFile with
  | none => (["No active note to export"], Except.ok none)
  | some html0 =>
    if html0 == "" then (["No active note to export"], Except.ok none)
    else
      match getImageAttachmentsFromCurrentNote resolveLink activeFile embeds with
      | (ns1, images) =>
        match getTransactionPrice env (processImages readBinary html0 images) with
        | (ns2, Except.ok price) =>
          (ns1 ++ ns2, Except.ok (some (price, processImages readBinary html0 images)))
        | (ns2, Except.error e) => (ns1 ++ ns2, Except.error e)

/-- What one click of the modal's upload button leaves behind
(src/main.ts lines 223-233): the button label, the notices displayed,
whether the success paragraphs were created and with which URL, and the
exception, if any, that escaped the async handler unhandled. -/
structure ClickOutcome where
  buttonText : String
  notices : List String
  txSentShown : Bool
  urlShown : Option String
  threw : Option JsError
deriving DecidableEq

/-- The sendButton.onclick handler (src/main.ts lines 223-233): the
label turns to Uploading..., the upload is awaited, a truthy URL shows
the link, a falsy one a notice, and the label is reset — but when the
awaited upload throws, the handler stops at the await, so the reset
never runs and the exception escapes unhandled. -/
def sendButtonClick (env : ArweaveEnv) (privateKey data : String) : ClickOutcome :=
  match uploadToArweave env privateKey data with
  | (ns, Except.error e) =>
    { buttonText := "Uploading...", notices := ns, txSentShown := false,
      urlShown := none, threw := some e }
  | (ns, Except.ok url) =>
    if url == "" then
      { buttonText := "Upload note to Arweave",
        notices := ns ++ ["Error sending transaction"], txSentShown := false,
        urlShown := none, threw := none }
    else
      { buttonText := "Upload note to Arweave", notices := ns, txSentShown := true,
        urlShown := some url, threw := none }

/-- A string with a non-empty literal prefix is non-empty (JavaScript
truthiness of the produced URL strings). -/
theorem append_ne_empty_of_left_ne_nil (a b : String) (h : a.data ≠ []) :
    a ++ b ≠ "" := by
  intro hab
  have hd := congrArg String.data hab
  rw [String.data_append] at hd
  exact h (List.append_eq_nil.mp hd).1

/-- Claim C8 (amended): for every file extension, the lookup returns
the fixed table entry when the lowercased extension is a key of the
table; for any other extension it returns application/octet-stream,
EXCEPT when the lowercased extension names an inherited
Object.prototype property (reachably: constructor or the dunder-proto
key, the all-lowercase ones), where the object-literal access yields
the truthy inherited member and the or-default never fires. -/
theorem c8_mime_lookup_with_prototype_chain (ext : String) :
    (∃ m, (toLowerStr ext, m) ∈ mimeTypes ∧ getMimeType ext = MimeLookupResult.str m) ∨
      (getMimeType ext = MimeLookupResult.protoMember (toLowerStr ext) ∧
        objectPrototypeKeys.contains (toLowerStr ext) = true ∧
        ∀ p ∈ mimeTypes, p.1 ≠ toLowerStr ext) ∨
      (getMimeType ext = MimeLookupResult.str "application/octet-stream" ∧
        objectPrototypeKeys.contains (toLowerStr ext) = false ∧
        ∀ p ∈ mimeTypes, p.1 ≠ toLowerStr ext) := by
  by_cases h1 : toLowerStr ext = "png"
  · exact Or.inl ⟨"image/png", by simp [mimeTypes, h1],
      by simp [getMimeType, mimeTypes, List.lookup, h1]⟩
  by_cases h2 : toLowerStr ext = "jpg"
  · exact Or.inl ⟨"image/jpeg", by simp [mimeTypes, h2],
      by simp [getMimeType, mimeTypes, List.lookup, h2]⟩
  by_cases h3 : toLowerStr ext = "jpeg"
  · exact Or.inl ⟨"image/jpeg", by simp [mimeTypes, h3],
      by simp [getMimeType, mimeTypes, List.lookup, h3]⟩
  by_cases h4 : toLowerStr ext = "gif"
  · exact Or.inl ⟨"image/gif", by simp [mimeTypes, h4],
      by simp [getMimeType, mimeTypes, List.lookup, h4]⟩
  by_cases h5 : toLowerStr ext = "bmp"
  · exact Or.inl ⟨"image/bmp", by simp [mimeTypes, h5],
      by simp [getMimeType, mimeTypes, List.lookup, h5]⟩
  by_cases h6 : toLowerStr ext = "svg"
  · exact Or.inl ⟨"image/svg+xml", by simp [mimeTypes, h6],
      by simp [getMimeType, mimeTypes, List.lookup, h6]⟩
  have b1 : (toLowerStr ext == "png") = false := beq_eq_false_iff_ne.mpr h1
  have b2 : (toLowerStr ext == "jpg") = false := beq_eq_false_iff_ne.mpr h2
  have b3 : (toLowerStr ext == "jpeg") = false := beq_eq_false_iff_ne.mpr h3
  have b4 : (toLowerStr ext == "gif") = false := beq_eq_false_iff_ne.mpr h4
  have b5 : (toLowerStr ext == "bmp") = false := beq_eq_false_iff_ne.mpr h5
  have b6 : (toLowerStr ext == "svg") = false := beq_eq_false_iff_ne.mpr h6
  have hlook : mimeTypes.lookup (toLowerStr ext) = none := by
    simp [mimeTypes, List.lookup, b1, b2, b3, b4, b5, b6]
  have hforall : ∀ p ∈ mimeTypes, p.1 ≠ toLowerStr ext := by
    simp only [mimeTypes, List.mem_cons, List.not_mem_nil, or_false]
    rintro p (rfl | rfl | rfl | rfl | rfl | rfl) <;>
      simp only [] <;> first
        | exact Ne.symm h1 | exact Ne.symm h2 | exact Ne.symm h3
        | exact Ne.symm h4 | exact Ne.symm h5 | exact Ne.symm h6
  by_cases hP : objectPrototypeKeys.contains (toLowerStr ext) = true
  · exact Or.inr (Or.inl ⟨by simp only [getMimeType, hlook]; rw [if_pos hP], hP, hforall⟩)
  · have hPf : objectPrototypeKeys.contains (toLowerStr ext) = false :=
      Bool.not_eq_true _ ▸ hP
    exact Or.inr (Or.inr ⟨by simp only [getMimeType, hlook]; rw [if_neg hP], hPf, hforall⟩)

/-- Counterexample to C8 as stated: the extensions constructor and
dunder-proto are not keys of the table, yet the lookup does not return
application/octet-stream for them — the object literal inherits a
truthy member from Object.prototype under each, so the program returns
that member (a function, respectively the prototype object). -/
theorem c8_counterexample :
    getMimeType "constructor" = MimeLookupResult.protoMember "constructor" ∧
      getMimeType "constructor" ≠ MimeLookupResult.str "application/octet-stream" ∧
      getMimeType "__proto__" = MimeLookupResult.protoMember "__proto__" ∧
      (∀ p ∈ mimeTypes, p.1 ≠ "constructor") := by
  refine ⟨rfl, by decide, rfl, by decide⟩

/-- Claim C4: once the transaction is constructed, tagged and signed,
the posted response's status decides the outcome: 200 or 202 returns
the URL built from the network host and the transaction id, and any
other status raises an error that names the status, with no URL
returned. -/
theorem c4_status_decides_url (env : ArweaveEnv) (key html : String)
    (w : Wallet) (tx : Transaction) (status : Nat)
    (hw : env.jsonParse key = Except.ok w)
    (hc : env.createTransaction html w = Except.ok tx)
    (hs : env.sign { tx with tags := tx.tags ++ [("Content-Type", "text/html")] } w =
      Except.ok ())
    (hp : env.post { tx with tags := tx.tags ++ [("Content-Type", "text/html")] } =
      Except.ok status) :
    uploadToArweave env key html =
      if status == 200 || status == 202 then
        ([], Except.ok ("https://arweave.net/" ++ tx.id))
      else
        (["Error uploading to Arweave: " ++ (JsError.status status).toStr],
          Except.error (JsError.status status)) := by
  by_cases h : (status == 200 || status == 202) = true
  · simp [uploadToArweave, uploadBody, hw, hc, hs, hp, h, bind, Except.bind,
      pure, Except.pure]
  · simp [uploadToArweave, uploadBody, hw, hc, hs, hp, h, bind, Except.bind,
      pure, Except.pure, throw, throwThe, MonadExceptOf.throw, Bool.not_eq_true]

/-- A concrete environment in which every external call succeeds and
the posted transaction is accepted with status 200. -/
def envOkBase : ArweaveEnv where
  jsonParse := fun _ => Except.ok ⟨"w"⟩
  createTransaction := fun _ _ => Except.ok ⟨"TX123", []⟩
  sign := fun _ _ => Except.ok ()
  post := fun _ => Except.ok 200
  getAddress := fun _ => Except.ok "addr"
  getBalance := fun _ => Except.ok "5000"
  winstonToAr := fun s => s
  getPrice := fun _ => Except.ok "7"
  arUsdRate := Except.ok 2
  numOfString := fun _ => 3

/-- The same environment, except that posting the transaction yields
HTTP status 400. -/
def envFail400 : ArweaveEnv :=
  { envOkBase with post := fun _ => Except.ok 400 }

/-- The same environment, except that the stored credential does not
parse as JSON. -/
def envBadKey : ArweaveEnv :=
  { envOkBase with
    jsonParse := fun _ => Except.error (JsError.parse "Unexpected token o in JSON at position 1") }

/-- Witness for C4 at a concrete environment: a posted status of 400 is
a raised, status-naming error and no URL. -/
theorem c4_witness :
    uploadToArweave envFail400 "k" "h" =
      if (400 == 200 || 400 == 202) = true then
        ([], Except.ok ("https://arweave.net/" ++ Transaction.id ⟨"TX123", []⟩))
      else
        (["Error uploading to Arweave: " ++ (JsError.status 400).toStr],
          Except.error (JsError.status 400)) := by
  have h := c4_status_decides_url envFail400 "k" "h" ⟨"w"⟩ ⟨"TX123", []⟩ 400 rfl rfl rfl rfl
  simpa using h

/-- Claim C2 (amended): with a credential that fails to parse, the
upload operation propagates the parse error with NO notice (its
JSON.parse call sits before the try block), while the balance lookup,
which also derives the address, catches the parse error, displays one
notice and re-raises it. -/
theorem c2_parse_error_paths (env : ArweaveEnv) (key : String) (e : JsError)
    (hparse : env.jsonParse key = Except.error e) (html : String) :
    uploadToArweave env key html = ([], Except.error e) ∧
      getBalanceByPrivateKey env key =
        (["Error getting balance: " ++ e.toStr], Except.error e) := by
  constructor
  · simp [uploadToArweave, hparse]
  · simp [getBalanceByPrivateKey, balanceBody, hparse, bind, Except.bind]

/-- Counterexample to C2 as stated: at a concrete non-JSON credential
the upload operation raises the parse error but displays no notice at
all (empty notice list), so it does not catch the error locally and
does not surface it to the user. -/
theorem c2_counterexample :
    uploadToArweave envBadKey "not json" "<p>x</p>" =
      ([], Except.error (JsError.parse "Unexpected token o in JSON at position 1")) := by
  rfl

/-- Witness for C2 (amended) at a concrete environment. -/
theorem c2_witness :
    uploadToArweave envBadKey "oops" "<p>y</p>" =
        ([], Except.error (JsError.parse "Unexpected token o in JSON at position 1")) ∧
      getBalanceByPrivateKey envBadKey "oops" =
        (["Error getting balance: " ++
            (JsError.parse "Unexpected token o in JSON at position 1").toStr],
          Except.error (JsError.parse "Unexpected token o in JSON at position 1")) :=
  c2_parse_error_paths envBadKey "oops"
    (JsError.parse "Unexpected token o in JSON at position 1") rfl "<p>y</p>"

/-- Claim C3 (amended): when the upload fails, the exception escapes
the click handler unhandled and the button label is NOT restored — it
stays at Uploading... because the handler has no catch or finally; a
notice was displayed by uploadToArweave's catch exactly when the
failure arose inside its try block, and no notice at all is displayed
when the credential parse itself failed. -/
theorem c3_failed_upload_leaves_button_stuck (env : ArweaveEnv) (key data : String)
    (ns : List String) (e : JsError)
    (h : uploadToArweave env key data = (ns, Except.error e)) :
    sendButtonClick env key data =
        { buttonText := "Uploading...", notices := ns, txSentShown := false,
          urlShown := none, threw := some e } ∧
      (env.jsonParse key = Except.error e → ns = []) ∧
      ∀ w, env.jsonParse key = Except.ok w →
        ns = ["Error uploading to Arweave: " ++ e.toStr] := by
  refine ⟨by simp [sendButtonClick, h], ?_, ?_⟩
  · intro hp
    simp only [uploadToArweave, hp] at h
    exact (Prod.mk.injEq _ _ _ _ ▸ h).1.symm
  · intro w hw
    simp only [uploadToArweave, hw] at h
    cases hb : uploadBody env w data with
    | ok u => rw [hb] at h; simp at h
    | error e2 =>
      rw [hb] at h
      have h1 := (Prod.mk.injEq _ _ _ _ ▸ h).1
      have h2 := (Prod.mk.injEq _ _ _ _ ▸ h).2
      have : e2 = e := by simpa using h2
      rw [← h1, this]

/-- Counterexample to C3 as stated: at a concrete failed upload (HTTP
status 400) a notice is shown but the button label is left at
Uploading..., not restored to the idle label, because the re-raised
error skips the reset line of the click handler. -/
theorem c3_counterexample_button_not_reset :
    (sendButtonClick envFail400 "k" "d").threw = some (JsError.status 400) ∧
      (sendButtonClick envFail400 "k" "d").notices =
        ["Error uploading to Arweave: Error: Transaction failed with status 400"] ∧
      (sendButtonClick envFail400 "k" "d").buttonText = "Uploading..." ∧
      "Uploading..." ≠ "Upload note to Arweave" := by
  refine ⟨rfl, rfl, rfl, by decide⟩

/-- Witness for C3 (amended) at a concrete failing environment. -/
theorem c3_witness :
    sendButtonClick envFail400 "k" "d" =
        { buttonText := "Uploading...",
          notices := ["Error uploading to Arweave: " ++ (JsError.status 400).toStr],
          txSentShown := false, urlShown := none, threw := some (JsError.status 400) } ∧
      (envFail400.jsonParse "k" = Except.error (JsError.status 400) →
        ["Error uploading to Arweave: " ++ (JsError.status 400).toStr] = []) ∧
      ∀ w, envFail400.jsonParse "k" = Except.ok w →
        ["Error uploading to Arweave: " ++ (JsError.status 400).toStr] =
          ["Error uploading to Arweave: " ++ (JsError.status 400).toStr] :=
  c3_failed_upload_leaves_button_stuck envFail400 "k" "d"
    ["Error uploading to Arweave: " ++ (JsError.status 400).toStr]
    (JsError.status 400) rfl

/-- Whenever the try block of uploadToArweave returns (rather than
throwing), the returned string is the network host URL followed by the
transaction id. -/
theorem uploadBody_ok_shape (env : ArweaveEnv) (w : Wallet) (html u : String)
    (h : uploadBody env w html = Except.ok u) :
    ∃ i, u = "https://arweave.net/" ++ i := by
  unfold uploadBody at h
  cases hc : env.createTransaction html w with
  | error e => simp only [hc] at h; exact Except.noConfusion h
  | ok tx =>
    simp only [hc] at h
    cases hs : env.sign { tx with tags := tx.tags ++ [("Content-Type", "text/html")] } w with
    | error e => simp only [hs] at h; exact Except.noConfusion h
    | ok _ =>
      simp only [hs] at h
      cases hp : env.post { tx with tags := tx.tags ++ [("Content-Type", "text/html")] } with
      | error e => simp only [hp] at h; exact Except.noConfusion h
      | ok status =>
        simp only [hp] at h
        by_cases hst : (status == 200 || status == 202) = true
        · rw [if_pos hst] at h
          exact ⟨tx.id, (Except.ok.inj h).symm⟩
        · rw [if_neg hst] at h
          exact absurd h (by simp)

/-- Claim C10: whenever the upload operation returns instead of
throwing, no notice was displayed and the returned URL is a non-empty
string, so the click handler's null-check always takes the success
branch and the Error-sending-transaction notice is unreachable. -/
theorem c10_returned_url_always_truthy (env : ArweaveEnv) (key data url : String)
    (ns : List String)
    (h : uploadToArweave env key data = (ns, Except.ok url)) :
    url ≠ "" ∧ ns = [] ∧
      sendButtonClick env key data =
        { buttonText := "Upload note to Arweave", notices := ns, txSentShown := true,
          urlShown := some url, threw := none } := by
  have hshape : (∃ i, url = "https://arweave.net/" ++ i) ∧ ns = [] := by
    cases hw : env.jsonParse key with
    | error e => simp only [uploadToArweave, hw] at h; simp at h
    | ok w =>
      simp only [uploadToArweave, hw] at h
      cases hb : uploadBody env w data with
      | error e => rw [hb] at h; simp at h
      | ok u =>
        rw [hb] at h
        have h1 : ([] : List String) = ns := congrArg Prod.fst h
        have h2 : u = url := Except.ok.inj (congrArg Prod.snd h)
        exact ⟨h2 ▸ uploadBody_ok_shape env w data u hb, h1.symm⟩
  obtain ⟨⟨i, hi⟩, hns⟩ := hshape
  have hne : url ≠ "" := by
    rw [hi]
    exact append_ne_empty_of_left_ne_nil _ _ (by decide)
  refine ⟨hne, hns, ?_⟩
  simp [sendButtonClick, h, beq_eq_false_iff_ne.mpr hne]

/-- Witness for C10 at a concrete succeeding environment. -/
theorem c10_witness :
    "https://arweave.net/TX123" ≠ "" ∧ ([] : List String) = [] ∧
      sendButtonClick envOkBase "k" "d" =
        { buttonText := "Upload note to Arweave", notices := [], txSentShown := true,
          urlShown := some "https://arweave.net/TX123", threw := none } :=
  c10_returned_url_always_truthy envOkBase "k" "d" "https://arweave.net/TX123" [] rfl

/-- The exported HTML skeleton is never the empty string (its body ends
with a fixed literal), so the JavaScript truthiness test on it always
passes for an existing note. -/
theorem fullHtmlTemplate_ne_empty (b c : String) : fullHtmlTemplate b c ≠ "" := by
  intro h
  have hd := congrArg String.data h
  rw [fullHtmlTemplate, String.data_append] at hd
  have h3 : ("\n</body>\n</html>\n" : String).data = [] :=
    (List.append_eq_nil.mp hd).2
  exact absurd h3 (by decide)

/-- Claim C7: with no active note the export returns null rather than
raising, the caller displays the No-active-note notice and opens no
modal; with an active note the export returns a non-null (and
non-empty) HTML string. -/
theorem c7_no_active_note_signals_absence (env : ArweaveEnv)
    (readBinary : TFile → String) (marked : String → String)
    (resolveLink : String → Option TFile) (embeds : Option (List EmbedCacheEntry)) :
    (openModal env readBinary marked resolveLink none embeds =
        (["No active note to export"], Except.ok none) ∧
      exportToHtml marked none = none) ∧
    ∀ f : NoteFile, ∃ h, exportToHtml marked (some f) = some h ∧ h ≠ "" := by
  refine ⟨⟨rfl, rfl⟩, fun f => ⟨fullHtmlTemplate f.basename (marked f.content), rfl, ?_⟩⟩
  exact fullHtmlTemplate_ne_empty _ _

/-- Claim C6: when the network price and the fiat rate are obtained,
the fee estimator succeeds with no notice, its result is the exact
template around the AR amount and the formatted fiat cost, the fiat
cost is the rate times the numeric AR amount rounded by
multiply-by-10000, round, divide-by-10000, and that rounded value has
at most four decimal places (times 10000 it is an integer). -/
theorem c6_price_string_form (env : ArweaveEnv) (data w : String) (rate : ℚ)
    (h1 : env.getPrice (jsLength data) = Except.ok w)
    (h2 : env.arUsdRate = Except.ok rate) :
    getTransactionPrice env data =
        ([], Except.ok ("Transaction cost: ~" ++ env.winstonToAr w ++ " AR (" ++
          fmtQ4 (roundTo4 (rate * env.numOfString (env.winstonToAr w))) ++ "$)")) ∧
      (roundTo4 (rate * env.numOfString (env.winstonToAr w)) * 10000).den = 1 := by
  constructor
  · simp [getTransactionPrice, getTransactionPriceBody, getArPriceInUSD, h1, h2]
  · rw [roundTo4, div_mul_cancel₀]
    · exact Rat.den_intCast _
    · norm_num

/-- A concrete succeeding pricing environment for the C6 witness. -/
def envPrice : ArweaveEnv :=
  { envOkBase with
    getPrice := fun _ => Except.ok "2000000000000"
    arUsdRate := Except.ok (123456 / 100000 : ℚ)
    numOfString := fun _ => 2 }

/-- Witness for C6 at a concrete environment and payload. -/
theorem c6_witness :
    getTransactionPrice envPrice "ab" =
        ([], Except.ok ("Transaction cost: ~" ++ envPrice.winstonToAr "2000000000000" ++
          " AR (" ++
          fmtQ4 (roundTo4 ((123456 / 100000 : ℚ) *
            envPrice.numOfString (envPrice.winstonToAr "2000000000000"))) ++ "$)")) ∧
      (roundTo4 ((123456 / 100000 : ℚ) *
          envPrice.numOfString (envPrice.winstonToAr "2000000000000")) * 10000).den = 1 :=
  c6_price_string_form envPrice "ab" "2000000000000" (123456 / 100000) rfl rfl

/-- One code point's UTF-16 length never exceeds its UTF-8 length. -/
theorem jsCharLen_le_utf8CharLen (c : Char) : jsCharLen c ≤ utf8CharLen c := by
  unfold jsCharLen utf8CharLen
  split_ifs <;> omega

/-- Summed over a character list, the UTF-16 length never exceeds the
UTF-8 byte length. -/
theorem sum_jsCharLen_le (l : List Char) :
    (l.map jsCharLen).sum ≤ (l.map utf8CharLen).sum := by
  induction l with
  | nil => simp
  | cons c cs ih =>
    simp only [List.map_cons, List.sum_cons]
    exact Nat.add_le_add (jsCharLen_le_utf8CharLen c) ih

/-- With one non-ASCII code point in the list, the UTF-16 length is
strictly below the UTF-8 byte length. -/
theorem sum_jsCharLen_lt (l : List Char) (h : ∃ c ∈ l, 128 ≤ c.toNat) :
    (l.map jsCharLen).sum < (l.map utf8CharLen).sum := by
  induction l with
  | nil => simp at h
  | cons c cs ih =>
    simp only [List.map_cons, List.sum_cons]
    rcases h with ⟨d, hd, hge⟩
    rcases List.mem_cons.mp hd with rfl | hmem
    · have hc : jsCharLen d < utf8CharLen d := by
        unfold jsCharLen utf8CharLen
        split_ifs <;> omega
      exact Nat.add_lt_add_of_lt_of_le hc (sum_jsCharLen_le cs)
    · exact Nat.add_lt_add_of_le_of_lt (jsCharLen_le_utf8CharLen c) (ih ⟨d, hmem, hge⟩)

/-- Claim C9: the byte count the fee estimator sends to the network
price query is data.length, the JavaScript UTF-16 code-unit count — the
estimator's outcome depends on getPrice only through its value at
jsLength data — and for a payload containing a non-ASCII character that
count is strictly smaller than the UTF-8 byte size of the uploaded
document (and never larger for any payload). -/
theorem c9_priced_length_is_utf16_length (env : ArweaveEnv)
    (f g : Nat → Except JsError String) (data : String)
    (hfg : f (jsLength data) = g (jsLength data))
    (hnon : ∃ c ∈ data.data, 128 ≤ c.toNat) :
    getTransactionPrice { env with getPrice := f } data =
        getTransactionPrice { env with getPrice := g } data ∧
      (∀ s : String, jsLength s ≤ utf8ByteLength s) ∧
      jsLength data < utf8ByteLength data := by
  refine ⟨?_, fun s => sum_jsCharLen_le s.data, sum_jsCharLen_lt data.data hnon⟩
  simp only [getTransactionPrice, getTransactionPriceBody, getArPriceInUSD]
  rw [hfg]

/-- A price query that distinguishes the priced length, for the C9
witness. -/
def gPriceW : Nat → Except JsError String :=
  fun n => if n == 2 then Except.ok "w" else Except.ok "x"

/-- A constant price query, for the C9 witness. -/
def fPriceW : Nat → Except JsError String :=
  fun _ => Except.ok "w"

/-- Witness for C9 at a concrete two-character payload with one
non-ASCII character. -/
theorem c9_witness :
    getTransactionPrice { envOkBase with getPrice := fPriceW } "aé" =
        getTransactionPrice { envOkBase with getPrice := gPriceW } "aé" ∧
      (∀ s : String, jsLength s ≤ utf8ByteLength s) ∧
      jsLength "aé" < utf8ByteLength "aé" :=
  c9_priced_length_is_utf16_length envOkBase fPriceW gPriceW "aé" rfl (by decide)

/-- Collecting over one more embed entry keeps everything collected
over the rest. -/
theorem collectAttachments_cons_sub (resolveLink : String → Option TFile)
    (e : EmbedCacheEntry) (es : List EmbedCacheEntry) (f : TFile)
    (h : f ∈ collectAttachments resolveLink es) :
    f ∈ collectAttachments resolveLink (e :: es) := by
  rcases hl : e.link with _ | l
  · simpa [collectAttachments, hl] using h
  · by_cases hE : (l == "") = true
    · simpa [collectAttachments, hl, hE] using h
    · rcases hr : resolveLink l with _ | f2
      · simpa [collectAttachments, hl, hE, hr] using h
      · by_cases hm : extMatchesImageRegex f2.extension = true
        · simp only [collectAttachments, hl, hE, hr, hm, if_true, if_false]
          exact List.mem_cons_of_mem _ h
        · simpa [collectAttachments, hl, hE, hr, hm] using h

/-- A file is collected by the embed-walking loop exactly when some
embed entry's truthy link resolves to it and its extension passes the
unanchored regex test. -/
theorem mem_collectAttachments (resolveLink : String → Option TFile)
    (es : List EmbedCacheEntry) (f : TFile) :
    f ∈ collectAttachments resolveLink es ↔
      ∃ e ∈ es, ∃ l, e.link = some l ∧ (l == "") = false ∧
        resolveLink l = some f ∧ extMatchesImageRegex f.extension = true := by
  induction es with
  | nil => simp [collectAttachments]
  | cons e es ih =>
    constructor
    · intro hmem
      rcases hl : e.link with _ | l
      · simp only [collectAttachments, hl] at hmem
        obtain ⟨e2, he2, hP⟩ := ih.mp hmem
        exact ⟨e2, List.mem_cons_of_mem _ he2, hP⟩
      · by_cases hE : (l == "") = true
        · simp only [collectAttachments, hl] at hmem
          rw [if_pos hE] at hmem
          obtain ⟨e2, he2, hP⟩ := ih.mp hmem
          exact ⟨e2, List.mem_cons_of_mem _ he2, hP⟩
        · rcases hr : resolveLink l with _ | f2
          · simp only [collectAttachments, hl] at hmem
            rw [if_neg hE] at hmem
            simp only [hr] at hmem
            obtain ⟨e2, he2, hP⟩ := ih.mp hmem
            exact ⟨e2, List.mem_cons_of_mem _ he2, hP⟩
          · by_cases hm : extMatchesImageRegex f2.extension = true
            · simp only [collectAttachments, hl] at hmem
              rw [if_neg hE] at hmem
              simp only [hr] at hmem
              rw [if_pos hm] at hmem
              rcases List.mem_cons.mp hmem with rfl | hmem2
              · exact ⟨e, List.mem_cons_self _ _,
                  l, hl, Bool.not_eq_true _ ▸ hE, hr, hm⟩
              · obtain ⟨e2, he2, hP⟩ := ih.mp hmem2
                exact ⟨e2, List.mem_cons_of_mem _ he2, hP⟩
            · simp only [collectAttachments, hl] at hmem
              rw [if_neg hE] at hmem
              simp only [hr] at hmem
              rw [if_neg hm] at hmem
              obtain ⟨e2, he2, hP⟩ := ih.mp hmem
              exact ⟨e2, List.mem_cons_of_mem _ he2, hP⟩
    · rintro ⟨e2, he2, l2, h1, h2, h3, h4⟩
      rcases List.mem_cons.mp he2 with rfl | he2m
      · simp only [collectAttachments, h1]
        rw [if_neg (by simp [h2])]
        simp only [h3]
        rw [if_pos h4]
        exact List.mem_cons_self _ _
      · have hin : f ∈ collectAttachments resolveLink es :=
          ih.mpr ⟨e2, he2m, l2, h1, h2, h3, h4⟩
        rcases hl : e.link with _ | l
        · simpa only [collectAttachments, hl] using hin
        · by_cases hE : (l == "") = true
          · simp only [collectAttachments, hl]
            rw [if_pos hE]
            exact hin
          · rcases hr : resolveLink l with _ | f2
            · simp only [collectAttachments, hl]
              rw [if_neg hE]
              simp only [hr]
              exact hin
            · by_cases hm : extMatchesImageRegex f2.extension = true
              · simp only [collectAttachments, hl]
                rw [if_neg hE]
                simp only [hr]
                rw [if_pos hm]
                exact List.mem_cons_of_mem _ hin
              · simp only [collectAttachments, hl]
                rw [if_neg hE]
                simp only [hr]
                rw [if_neg hm]
                exact hin

/-- Claim C5 (amended): an embed's resolved file is collected exactly
when its extension, lowercased, CONTAINS one of png, jpg, jpeg, gif,
bmp, svg as a substring — the regex of line 113 is unanchored — and in
particular every extension that equals one of the six
case-insensitively is collected. -/
theorem c5_collected_iff_regex_match (resolveLink : String → Option TFile)
    (note : NoteFile) (es : List EmbedCacheEntry) (f : TFile) :
    (f ∈ (getImageAttachmentsFromCurrentNote resolveLink (some note) (some es)).2 ↔
      ∃ e ∈ es, ∃ l, e.link = some l ∧ (l == "") = false ∧
        resolveLink l = some f ∧ extMatchesImageRegex f.extension = true) ∧
    ∀ ext, claimedImageExtension ext = true → extMatchesImageRegex ext = true := by
  constructor
  · simpa [getImageAttachmentsFromCurrentNote] using
      mem_collectAttachments resolveLink es f
  · intro ext h
    unfold claimedImageExtension at h
    simp only [Bool.or_eq_true, beq_iff_eq] at h
    unfold extMatchesImageRegex
    rcases h with ((((h | h) | h) | h) | h) | h <;> rw [h] <;> decide

/-- A resolver that sends the link x.apng to a file with extension
apng. -/
def resolveApng : String → Option TFile :=
  fun l => if l == "x.apng" then some ⟨"x.apng", "apng"⟩ else none

/-- A concrete active note for the counterexamples. -/
def noteD : NoteFile :=
  ⟨"note", "content"⟩

/-- Counterexample to C5 as stated: a file whose extension is apng —
not one of the six listed extensions — is nevertheless collected,
because the unanchored regex finds png inside apng. -/
theorem c5_counterexample :
    (getImageAttachmentsFromCurrentNote resolveApng (some noteD)
        (some [⟨some "x.apng"⟩])).2 = [⟨"x.apng", "apng"⟩] ∧
      claimedImageExtension "apng" = false := by
  exact ⟨rfl, by decide⟩

/-- Witness for C5 (amended): a listed extension in upper case passes
the code's regex test. -/
theorem c5_witness : extMatchesImageRegex "SVG" = true :=
  (c5_collected_iff_regex_match (fun _ => none) noteD [] ⟨"a", "b"⟩).2 "SVG" (by decide)

/-- Unfolding equation of GetSubstitution at a cons cell. -/
theorem getSubstitution_cons (matched before after : List Char) (c : Char)
    (rest : List Char) :
    getSubstitution matched before after (c :: rest) =
      if c = '$' then
        (match rest with
        | [] => ['$']
        | d :: rest2 =>
          if d = '$' then '$' :: getSubstitution matched before after rest2
          else if d = '&' then matched ++ getSubstitution matched before after rest2
          else if d = backquoteChar then
            before ++ getSubstitution matched before after rest2
          else if d = singleQuoteChar then
            after ++ getSubstitution matched before after rest2
          else '$' :: d :: getSubstitution matched before after rest2)
      else c :: getSubstitution matched before after rest := by
  rw [getSubstitution.eq_def]

/-- A replacement string containing no dollar sign is inserted
literally by GetSubstitution. -/
theorem getSubstitution_of_no_dollar (matched before after : List Char) :
    ∀ repl : List Char, '$' ∉ repl →
      getSubstitution matched before after repl = repl := by
  intro repl
  induction repl with
  | nil => intro _; rfl
  | cons c rest ih =>
    intro h
    have hrest : '$' ∉ rest := fun hm => h (List.mem_cons_of_mem _ hm)
    have hc : ¬ c = '$' := by
      intro hh
      rw [hh] at h
      exact h (List.mem_cons_self _ _)
    rw [getSubstitution_cons, if_neg hc, ih hrest]

/-- String.replace with a string pattern rewrites exactly one
occurrence: when the pattern occurs, the input splits as
pre ++ pat ++ post and the result is pre, then the GetSubstitution
expansion of the replacement (seeing pre as the text before and post
as the text after the match), then post. -/
theorem replaceFirstAux_spec (pat repl : List Char) :
    ∀ s seen : List Char, containsSubL pat s = true →
      ∃ pre post, s = pre ++ pat ++ post ∧
        replaceFirstAux pat repl seen s =
          pre ++ getSubstitution pat (seen.reverse ++ pre) post repl ++ post := by
  intro s
  induction s with
  | nil =>
    intro seen h
    simp only [containsSubL] at h
    have hp : pat = [] := by simpa using h
    refine ⟨[], [], by simp [hp], ?_⟩
    simp [replaceFirstAux, hp]
  | cons c cs ih =>
    intro seen h
    by_cases hp : pat.isPrefixOf (c :: cs) = true
    · obtain ⟨t, ht⟩ : pat <+: c :: cs := List.isPrefixOf_iff_prefix.mp hp
      refine ⟨[], t, by simp [← ht], ?_⟩
      rw [replaceFirstAux, if_pos hp, ← ht, List.drop_left]
      simp
    · have h2 : containsSubL pat cs = true := by
        rw [containsSubL, Bool.or_eq_true] at h
        rcases h with h | h
        · exact absurd h hp
        · exact h
      obtain ⟨pre, post, h1, hrw⟩ := ih (c :: seen) h2
      refine ⟨c :: pre, post, by simp [h1], ?_⟩
      rw [replaceFirstAux, if_neg hp, hrw]
      simp [List.append_assoc]

/-- The split form of one String.replace call on the whole string. -/
theorem replaceFirstL_spec (pat repl s : List Char)
    (h : containsSubL pat s = true) :
    ∃ pre post, s = pre ++ pat ++ post ∧
      replaceFirstL pat repl s = pre ++ getSubstitution pat pre post repl ++ post := by
  obtain ⟨pre, post, h1, h2⟩ := replaceFirstAux_spec pat repl s [] h
  exact ⟨pre, post, h1, by simpa [replaceFirstL] using h2⟩

/-- Claim C1 (amended): each image attachment resolved from the embed
index replaces exactly one — the first — literal occurrence of the
embed syntax in the exported HTML, inserting the GetSubstitution
expansion of the img-tag replacement; whenever that replacement
contains no dollar sign (in particular whenever the filename does
not), the inserted text is exactly the img tag whose src is the base64
data URI and whose alt is the filename. -/
theorem c1_embed_replaced_first_occurrence (readBinary : TFile → String)
    (html : String) (f : TFile)
    (h : containsSub (embedPattern f.name) html = true) :
    ∃ pre post : List Char,
      html.data = pre ++ (embedPattern f.name).data ++ post ∧
      (processImages readBinary html [f]).data =
        pre ++ getSubstitution (embedPattern f.name).data pre post
          (imgTag readBinary f).data ++ post ∧
      ('$' ∉ (imgTag readBinary f).data →
        getSubstitution (embedPattern f.name).data pre post
          (imgTag readBinary f).data = (imgTag readBinary f).data) := by
  obtain ⟨pre, post, h1, h2⟩ :=
    replaceFirstL_spec (embedPattern f.name).data (imgTag readBinary f).data html.data h
  exact ⟨pre, post, h1, by simpa only [processImages, replaceFirst] using h2,
    fun hd => getSubstitution_of_no_dollar _ _ _ _ hd⟩

/-- A concrete binary reader for the C1 theorems. -/
def rbW : TFile → String :=
  fun _ => "QUJD"

/-- A resolver that sends the link d.png to a png file. -/
def resolveD : String → Option TFile :=
  fun l => if l == "d.png" then some ⟨"d.png", "png"⟩ else none

/-- Counterexample to C1 as stated: a note whose embed index resolves
the attachment once while the exported HTML holds the embed syntax
twice keeps the second occurrence unreplaced, because String.replace
with a string pattern replaces only the first occurrence. -/
theorem c1_counterexample :
    (getImageAttachmentsFromCurrentNote resolveD (some noteD)
        (some [⟨some "d.png"⟩])).2 = [⟨"d.png", "png"⟩] ∧
      containsSub "![[d.png]]"
        (processImages rbW "<p>![[d.png]] and ![[d.png]]</p>" [⟨"d.png", "png"⟩]) =
        true := by
  exact ⟨rfl, by decide⟩

/-- Witness for C1 (amended) at a concrete note with one embed
occurrence. -/
theorem c1_witness :
    ∃ pre post : List Char,
      ("A ![[d.png]] B" : String).data = pre ++ (embedPattern "d.png").data ++ post ∧
      (processImages rbW "A ![[d.png]] B" [⟨"d.png", "png"⟩]).data =
        pre ++ getSubstitution (embedPattern "d.png").data pre post
          (imgTag rbW ⟨"d.png", "png"⟩).data ++ post ∧
      ('$' ∉ (imgTag rbW ⟨"d.png", "png"⟩).data →
        getSubstitution (embedPattern "d.png").data pre post
          (imgTag rbW ⟨"d.png", "png"⟩).data = (imgTag rbW ⟨"d.png", "png"⟩).data) :=
  c1_embed_replaced_first_occurrence rbW "A ![[d.png]] B" ⟨"d.png", "png"⟩ (by decide)

/-- GetSubstitution fidelity on a concrete input: for a filename
containing the dollar-ampersand sequence, the program expands it to
the matched embed syntax inside the alt text, so the inserted element
is NOT the img tag with the filename as alt. -/
theorem replaceFirst_expands_dollar_amp :
    processImages rbW "x ![[a$&.png]] y" [⟨"a$&.png", "png"⟩] =
        "x <img src=\"data:image/png;base64,QUJD\" alt=\"a![[a$&.png]].png\"> y" ∧
      processImages rbW "x ![[a$&.png]] y" [⟨"a$&.png", "png"⟩] ≠
        "x " ++ imgTag rbW ⟨"a$&.png", "png"⟩ ++ " y" := by
  exact ⟨by decide, by decide⟩
